import Mathlib

/-!
Verification development for the confession-checker tool
(`tool/confession_checker/checker.py`).

Python dictionaries are embedded as insertion-ordered association lists
(`List (Int × α)`): `k in d` is `containsKey`, `d[k]` is `lookupA`, and
`d[k] = v` (used in the source only after a not-in check) appends the pair.
Raising `ValueError` is embedded as an `Except CheckError` result; for the
stateful `DataBase` methods the result is paired with the post-call state,
so that the state left behind by a raising call is captured exactly
(the Python methods mutate `self` in place as they iterate).
-/

namespace Confession

/-- A Python `Dict[int, α]` in insertion order. -/
abbrev OMap (α : Type) := List (Int × α)

/-- First-match lookup, i.e. Python `d[k]` / `d.get(k)`. -/
def lookupA {α : Type} : OMap α → Int → Option α
  | [], _ => none
  | (k, v) :: rest, i => if k = i then some v else lookupA rest i

/-- Python `k in d`. -/
def containsKey {α : Type} (m : OMap α) (k : Int) : Bool :=
  (lookupA m k).isSome

/-- Python `d[k] = v` for a key known to be absent: appends in insertion order. -/
def insertA {α : Type} (m : OMap α) (k : Int) (v : α) : OMap α :=
  m ++ [(k, v)]

/-- The keys of the map, in insertion order. -/
def keysOf {α : Type} (m : OMap α) : List Int :=
  m.map (fun p => p.1)

/-- `class SomeIpEntity` from checker.py. -/
structure SomeIpEntity where
  service_name : String
  service_id : Int
  methods : OMap String
  events : OMap String
  deriving DecidableEq

/-- `class DiagEntity` from checker.py. -/
structure DiagEntity where
  name : String
  jobs : OMap String
  dtcs : OMap String
  deriving DecidableEq

/-- `class DataBase` from checker.py. -/
structure DataBase where
  someip_db : OMap SomeIpEntity
  diag_entities : List DiagEntity
  global_diag_job_ids : OMap String
  global_diag_dtc_ids : OMap String
  deriving DecidableEq

/-- `DataBase.__init__`. -/
def DataBase.empty : DataBase :=
  { someip_db := [], diag_entities := [],
    global_diag_job_ids := [], global_diag_dtc_ids := [] }

/-- The `ValueError`s raised by checker.py, carrying the data interpolated
into each message string. -/
inductive CheckError where
  /-- "Duplicate SOME/IP Service ID {id}: {newName} conflicts with {oldName}" -/
  | duplicateServiceId (id : Int) (newName oldName : String)
  /-- "Duplicate Diag Job ID {id}: {jobName} conflicts with {prevName}" -/
  | duplicateJobId (id : Int) (jobName prevName : String)
  /-- "Duplicate Diag DTC ID {id}: {dtcName} conflicts with {prevName}" -/
  | duplicateDtcId (id : Int) (dtcName prevName : String)
  /-- "Duplicate Method ID {id} inside service {serviceName}" -/
  | duplicateMethodId (id : Int) (serviceName : String)
  /-- "Duplicate Event ID {id} inside service {serviceName}" -/
  | duplicateEventId (id : Int) (serviceName : String)
  /-- "Duplicate Job ID {id} in file {filename}" (process_diag_data) -/
  | duplicateFileJobId (id : Int) (filename : String)
  /-- "Duplicate DTC ID {id} in file {filename}" (process_diag_data) -/
  | duplicateFileDtcId (id : Int) (filename : String)
  /-- "File {filename} resides in a {key} folder but is missing the {key} key." -/
  | contentMismatch (filename : String) (missingKey : String)
  deriving DecidableEq

/-- `DataBase.add_someip_entity`: fail on a `service_id` already registered,
reporting both names; otherwise insert the entity under its `service_id`.
The second component of the result is the state of `self` after the call. -/
def DataBase.add_someip_entity (db : DataBase) (entity : SomeIpEntity) :
    Except CheckError Unit × DataBase :=
  match lookupA db.someip_db entity.service_id with
  | some dup =>
      (Except.error (CheckError.duplicateServiceId entity.service_id
        entity.service_name dup.service_name), db)
  | none =>
      (Except.ok (),
       { db with someip_db := insertA db.someip_db entity.service_id entity })

/-- One of the two id-merging loops of `DataBase.add_diag_entity`: walk the
entries, and for each one either detect a conflict against the global map
built so far (returning the conflicting id, the new name and the previous
name) or insert it.  The returned map is the global map at the moment the
loop stops — the insertions made before a conflict are kept, exactly as the
Python loop mutates `self` in place. -/
def mergeLoop (global : OMap String) :
    OMap String → OMap String × Option (Int × String × String)
  | [] => (global, none)
  | (id, nm) :: rest =>
    match lookupA global id with
    | some prev => (global, some (id, nm, prev))
    | none => mergeLoop (insertA global id nm) rest

/-- `DataBase.add_diag_entity`: merge the entity job ids then dtc ids into
the global maps, raising on the first conflict; append the entity only after
both loops complete.  On a raise, insertions already performed remain in the
returned state (the Python loops mutate `self.global_diag_job_ids` /
`self.global_diag_dtc_ids` as they go). -/
def DataBase.add_diag_entity (db : DataBase) (entity : DiagEntity) :
    Except CheckError Unit × DataBase :=
  match mergeLoop db.global_diag_job_ids entity.jobs with
  | (g, some (id, nm, prev)) =>
      (Except.error (CheckError.duplicateJobId id nm prev),
       { db with global_diag_job_ids := g })
  | (g1, none) =>
    match mergeLoop db.global_diag_dtc_ids entity.dtcs with
    | (g2, some (id, nm, prev)) =>
        (Except.error (CheckError.duplicateDtcId id nm prev),
         { db with global_diag_job_ids := g1, global_diag_dtc_ids := g2 })
    | (g2, none) =>
        (Except.ok (),
         { db with global_diag_job_ids := g1, global_diag_dtc_ids := g2,
                   diag_entities := db.diag_entities ++ [entity] })

/-- One `methods` / `events` / `job` / `dtc` sub-mapping of a document:
each named entry either declares an integer id (`{"id": n}` resp.
`{"sub_service_id": n}`) or does not (`.get` returns `None`). -/
abbrev ItemList := List (String × Option Int)

/-- One interface block of the `someip` section: `service_data` with its
optional `"service_id"` field and its `"methods"` / `"events"` maps
(`.get(..., {})` defaults them to empty). -/
structure ServiceData where
  service_id : Option Int
  methods : ItemList
  events : ItemList
  deriving DecidableEq

/-- The `diag` section of a document: the `"job"` and `"dtc"` keys (present
or absent), plus whether the mapping carries any further keys — Python
truthiness of the section is key-presence, not job/dtc content. -/
structure DiagContent where
  job : Option ItemList
  dtc : Option ItemList
  hasOtherKeys : Bool
  deriving DecidableEq

/-- Python truthiness of the `diag` section mapping: nonempty as a dict. -/
def DiagContent.isTruthy (c : DiagContent) : Bool :=
  c.job.isSome || c.dtc.isSome || c.hasOtherKeys

/-- A parsed JSON document as checker.py reads it: the two monitored
top-level keys (present or absent); anything else in the document is never
inspected. -/
structure Document where
  someip : Option (List (String × ServiceData))
  diag : Option DiagContent
  deriving DecidableEq

/-- The method/event/job/dtc accumulation loop of checker.py: skip entries
without an id, fail if the declared id is already in the map being built,
else insert id → name. -/
def buildIdMap (acc : OMap String) (items : ItemList)
    (err : Int → CheckError) : Except CheckError (OMap String) :=
  match items with
  | [] => Except.ok acc
  | (_, none) :: rest => buildIdMap acc rest err
  | (nm, some id) :: rest =>
    if containsKey acc id then Except.error (err id)
    else buildIdMap (insertA acc id nm) rest err

/-- The body of the `process_someip_data` loop for the blocks of the
`someip` section, in iteration order. -/
def processServices : List (String × ServiceData) →
    Except CheckError (List SomeIpEntity)
  | [] => Except.ok []
  | (nm, sd) :: rest =>
    match sd.service_id with
    | none => processServices rest
    | some sid => do
      let ms ← buildIdMap [] sd.methods (fun i => CheckError.duplicateMethodId i nm)
      let es ← buildIdMap [] sd.events (fun i => CheckError.duplicateEventId i nm)
      let tail ← processServices rest
      Except.ok (⟨nm, sid, ms, es⟩ :: tail)

/-- `process_someip_data`: iterate `data.get("someip", {})`. -/
def process_someip_data (data : Document) : Except CheckError (List SomeIpEntity) :=
  processServices (data.someip.getD [])

/-- `process_diag_data`: `None` when the `diag` section is absent or empty
(falsy); otherwise build the document single `DiagEntity` named after the
file, reading job ids from `sub_service_id` and dtc ids from `id`. -/
def process_diag_data (data : Document) (filename : String) :
    Except CheckError (Option DiagEntity) :=
  match data.diag with
  | none => Except.ok none
  | some c =>
    if c.isTruthy then do
      let jobs ← buildIdMap [] (c.job.getD []) (fun i => CheckError.duplicateFileJobId i filename)
      let dtcs ← buildIdMap [] (c.dtc.getD []) (fun i => CheckError.duplicateFileDtcId i filename)
      Except.ok (some ⟨filename, jobs, dtcs⟩)
    else Except.ok none

/-- `validate_directory_content`: the `os.path.normpath(filename).split(os.sep)`
result is taken as the `pathParts` argument.  A file under a `someip` folder
must carry the `someip` key, checked first; then likewise for `diag`. -/
def validate_directory_content (pathParts : List String) (filename : String)
    (data : Document) : Except CheckError Unit :=
  if pathParts.contains "someip" && data.someip.isNone then
    Except.error (CheckError.contentMismatch filename "someip")
  else if pathParts.contains "diag" && data.diag.isNone then
    Except.error (CheckError.contentMismatch filename "diag")
  else Except.ok ()

/-- The payload of a raised `ValueError`, when one was raised. -/
def errorOf {α : Type} : Except CheckError α → Option CheckError
  | Except.error e => some e
  | Except.ok _ => none

/-! ### Basic lemmas about the ordered-map embedding -/

theorem lookupA_append {α : Type} (m m' : OMap α) (i : Int) :
    lookupA (m ++ m') i = (lookupA m i).or (lookupA m' i) := by
  induction m with
  | nil => simp [lookupA]
  | cons p rest ih =>
    rcases p with ⟨k, v⟩
    by_cases h : k = i <;> simp [lookupA, h, ih]

theorem lookupA_insertA {α : Type} (m : OMap α) (k : Int) (v : α) (i : Int) :
    lookupA (insertA m k v) i =
      (lookupA m i).or (if k = i then some v else none) := by
  rw [insertA, lookupA_append]
  by_cases h : k = i <;> simp [lookupA, h]

theorem containsKey_insertA {α : Type} (m : OMap α) (k : Int) (v : α) (i : Int) :
    containsKey (insertA m k v) i = (containsKey m i || k = i) := by
  rw [containsKey, lookupA_insertA, containsKey]
  rcases h : lookupA m i with _ | w <;> by_cases hk : k = i <;> simp [h, hk, Option.or]

theorem lookupA_isSome_iff {α : Type} (m : OMap α) (i : Int) :
    (lookupA m i).isSome = true ↔ i ∈ keysOf m := by
  induction m with
  | nil => simp [lookupA, keysOf]
  | cons p rest ih =>
    rcases p with ⟨k, v⟩
    by_cases h : k = i <;> simp [lookupA, keysOf, h, ih]
    exact fun he => absurd he.symm h

theorem containsKey_iff_mem_keysOf {α : Type} (m : OMap α) (i : Int) :
    containsKey m i = true ↔ i ∈ keysOf m := by
  rw [containsKey]; exact lookupA_isSome_iff m i

/-! ### C3: interface admission -/

/-- C3: `add_someip_entity` fails with a DuplicateServiceId error iff the
entity `service_id` is already a key of the registered-interfaces map; the
error names the new entity, the previously registered entity and the shared
id, and leaves the registry unchanged; on success the entity is inserted
under its `service_id`. -/
theorem add_someip_entity_spec (db : DataBase) (e : SomeIpEntity) :
    ((db.add_someip_entity e).1 = Except.ok () ↔
       containsKey db.someip_db e.service_id = false)
    ∧ (∀ dup, lookupA db.someip_db e.service_id = some dup →
        db.add_someip_entity e =
          (Except.error (CheckError.duplicateServiceId e.service_id
             e.service_name dup.service_name), db))
    ∧ (containsKey db.someip_db e.service_id = false →
        (db.add_someip_entity e).2.someip_db =
            insertA db.someip_db e.service_id e
        ∧ lookupA (db.add_someip_entity e).2.someip_db e.service_id = some e) := by
  refine ⟨?_, ?_, ?_⟩
  · rcases h : lookupA db.someip_db e.service_id with _ | dup <;>
      simp [DataBase.add_someip_entity, h, containsKey]
  · intro dup hdup
    simp [DataBase.add_someip_entity, hdup]
  · intro hc
    rcases h : lookupA db.someip_db e.service_id with _ | dup
    · constructor <;> simp [DataBase.add_someip_entity, h, lookupA_insertA]
    · rw [containsKey, h] at hc
      simp at hc

/-- Witness for C3 on a concrete registry: a conflicting admission and a
fresh admission. -/
theorem add_someip_entity_spec_witness :
    let e1 : SomeIpEntity := ⟨"ServiceA", 100, [], []⟩
    let e2 : SomeIpEntity := ⟨"ServiceB", 100, [], []⟩
    let db1 := (DataBase.empty.add_someip_entity e1).2
    db1.add_someip_entity e2 =
      (Except.error (CheckError.duplicateServiceId 100 "ServiceB" "ServiceA"), db1) := by
  intro e1 e2 db1
  exact (add_someip_entity_spec db1 e2).2.1 e1 (by decide)

/-! ### C10: cross-kind frame property -/

/-- C10: `add_someip_entity` never touches the diagnostic side of the
registry, and `add_diag_entity` never touches the interface map — whether
the call succeeds or fails. -/
theorem admission_frame_spec (db : DataBase) (se : SomeIpEntity) (de : DiagEntity) :
    ((db.add_someip_entity se).2.diag_entities = db.diag_entities
      ∧ (db.add_someip_entity se).2.global_diag_job_ids = db.global_diag_job_ids
      ∧ (db.add_someip_entity se).2.global_diag_dtc_ids = db.global_diag_dtc_ids)
    ∧ (db.add_diag_entity de).2.someip_db = db.someip_db := by
  constructor
  · rcases h : lookupA db.someip_db se.service_id with _ | dup <;>
      simp [DataBase.add_someip_entity, h]
  · rcases h1 : mergeLoop db.global_diag_job_ids de.jobs with ⟨g1, c1⟩
    rcases c1 with _ | ⟨id, nm, prev⟩
    · rcases h2 : mergeLoop db.global_diag_dtc_ids de.dtcs with ⟨g2, c2⟩
      rcases c2 with _ | ⟨id2, nm2, prev2⟩ <;>
        simp [DataBase.add_diag_entity, h1, h2]
    · simp [DataBase.add_diag_entity, h1]

/-! ### C6: the document classifier -/

/-- C6: a document under the `someip` (resp. `diag`) namespace whose
matching top-level key is absent fails classification with a
ContentMismatch error naming the document and a missing key; a document
under neither namespace is always accepted; acceptance holds exactly when
no required key is missing. -/
theorem validate_directory_content_spec (parts : List String) (fn : String)
    (data : Document) :
    (("someip" ∈ parts ∧ data.someip = none) →
       validate_directory_content parts fn data =
         Except.error (CheckError.contentMismatch fn "someip"))
    ∧ (("diag" ∈ parts ∧ data.diag = none) →
       ∃ k, validate_directory_content parts fn data =
              Except.error (CheckError.contentMismatch fn k)
         ∧ ((k = "someip" ∧ "someip" ∈ parts ∧ data.someip = none)
            ∨ (k = "diag" ∧ data.diag = none)))
    ∧ (("someip" ∉ parts ∧ "diag" ∉ parts) →
       validate_directory_content parts fn data = Except.ok ())
    ∧ (validate_directory_content parts fn data = Except.ok () ↔
       (¬("someip" ∈ parts ∧ data.someip = none)
        ∧ ¬("diag" ∈ parts ∧ data.diag = none))) := by
  have hciff : ∀ (l : List String) (a : String), l.contains a = true ↔ a ∈ l :=
    fun l a => List.elem_iff
  by_cases hs : "someip" ∈ parts ∧ data.someip = none
  · have h1 : validate_directory_content parts fn data =
        Except.error (CheckError.contentMismatch fn "someip") := by
      unfold validate_directory_content
      rw [if_pos]
      simp only [Bool.and_eq_true, hciff, Option.isNone_iff_eq_none]
      exact ⟨hs.1, hs.2⟩
    refine ⟨fun _ => h1, fun hd => ⟨"someip", h1, Or.inl ⟨rfl, hs⟩⟩,
      fun hn => absurd hs.1 hn.1, ?_⟩
    rw [h1]
    constructor
    · intro hcontra; cases hcontra
    · intro hr; exact absurd hs hr.1
  · by_cases hd : "diag" ∈ parts ∧ data.diag = none
    · have h1 : validate_directory_content parts fn data =
          Except.error (CheckError.contentMismatch fn "diag") := by
        unfold validate_directory_content
        rw [if_neg, if_pos]
        · simp only [Bool.and_eq_true, hciff, Option.isNone_iff_eq_none]
          exact ⟨hd.1, hd.2⟩
        · simp only [Bool.and_eq_true, hciff, Option.isNone_iff_eq_none]
          intro hcon
          exact hs ⟨hcon.1, hcon.2⟩
      refine ⟨fun hcon => absurd hcon hs, fun _ => ⟨"diag", h1, Or.inr ⟨rfl, hd.2⟩⟩,
        fun hn => absurd hd.1 hn.2, ?_⟩
      rw [h1]
      constructor
      · intro hcontra; cases hcontra
      · intro hr; exact absurd hd hr.2
    · have h1 : validate_directory_content parts fn data = Except.ok () := by
        unfold validate_directory_content
        rw [if_neg, if_neg]
        · simp only [Bool.and_eq_true, hciff, Option.isNone_iff_eq_none]
          intro hcon
          exact hd ⟨hcon.1, hcon.2⟩
        · simp only [Bool.and_eq_true, hciff, Option.isNone_iff_eq_none]
          intro hcon
          exact hs ⟨hcon.1, hcon.2⟩
      refine ⟨fun hcon => absurd hcon hs, fun hcon => absurd hcon hd,
        fun _ => h1, ?_⟩
      rw [h1]
      exact ⟨fun _ => ⟨hs, hd⟩, fun _ => rfl⟩

/-- Witness for C6: a document under the `diag` namespace with no `diag`
key is rejected; one under neither namespace is accepted. -/
theorem validate_directory_content_spec_witness :
    let noDoc : Document := ⟨none, none⟩
    (∃ k, validate_directory_content ["diag", "f.json"] "diag/f.json" noDoc =
            Except.error (CheckError.contentMismatch "diag/f.json" k)
       ∧ ((k = "someip" ∧ "someip" ∈ ["diag", "f.json"] ∧ noDoc.someip = none)
          ∨ (k = "diag" ∧ noDoc.diag = none)))
    ∧ validate_directory_content ["other", "f.json"] "other/f.json" noDoc =
        Except.ok () := by
  intro noDoc
  constructor
  · exact (validate_directory_content_spec ["diag", "f.json"] "diag/f.json"
      noDoc).2.1 ⟨by decide, rfl⟩
  · exact (validate_directory_content_spec ["other", "f.json"] "other/f.json"
      noDoc).2.2.1 ⟨by decide, by decide⟩

/-! ### Lemmas about the diagnostic merge loops -/

theorem mergeLoop_none_eq (entries : OMap String) :
    ∀ g g1 : OMap String, mergeLoop g entries = (g1, none) → g1 = g ++ entries := by
  induction entries with
  | nil => intro g g1 h; rw [mergeLoop] at h; cases h; simp
  | cons p rest ih =>
    intro g g1 h
    rcases p with ⟨id, nm⟩
    rw [mergeLoop] at h
    rcases hl : lookupA g id with _ | prev
    · rw [hl] at h
      have := ih (insertA g id nm) g1 h
      simpa [insertA] using this
    · rw [hl] at h; cases h

theorem mergeLoop_extend (entries : OMap String) :
    ∀ g : OMap String, ∃ t, (mergeLoop g entries).1 = g ++ t
      ∧ ∀ p ∈ t, p ∈ entries := by
  induction entries with
  | nil => intro g; exact ⟨[], by simp [mergeLoop], by simp⟩
  | cons p rest ih =>
    intro g
    rcases p with ⟨id, nm⟩
    rcases hl : lookupA g id with _ | prev
    · rcases ih (insertA g id nm) with ⟨t, ht, hmem⟩
      refine ⟨(id, nm) :: t, ?_, ?_⟩
      · rw [mergeLoop, hl, ht]; simp [insertA]
      · intro q hq
        rcases List.mem_cons.mp hq with hq | hq
        · simp [hq]
        · exact List.mem_cons_of_mem _ (hmem q hq)
    · exact ⟨[], by rw [mergeLoop, hl]; simp, by simp⟩

theorem mergeLoop_none_iff (entries : OMap String) :
    ∀ g : OMap String, (mergeLoop g entries).2 = none ↔
      ((keysOf entries).Nodup ∧ ∀ k ∈ keysOf entries, lookupA g k = none) := by
  induction entries with
  | nil => intro g; simp [mergeLoop, keysOf]
  | cons p rest ih =>
    intro g
    rcases p with ⟨id, nm⟩
    rcases hl : lookupA g id with _ | prev
    · rw [mergeLoop, hl]
      rw [ih (insertA g id nm)]
      constructor
      · rintro ⟨hnd, hfresh⟩
        have hid : id ∉ keysOf rest := by
          intro hmem
          have := hfresh id hmem
          rw [lookupA_insertA, hl] at this
          simp [Option.or] at this
        refine ⟨?_, ?_⟩
        · simpa [keysOf, List.nodup_cons] using And.intro hid hnd
        · intro k hk
          rw [keysOf, List.map_cons] at hk
          rcases List.mem_cons.mp hk with hk | hk
          · rw [hk]; exact hl
          · have := hfresh k hk
            rw [lookupA_insertA] at this
            rcases hg : lookupA g k with _ | w
            · rfl
            · rw [hg] at this; simp [Option.or] at this
      · rintro ⟨hnd, hfresh⟩
        rw [keysOf, List.map_cons, List.nodup_cons] at hnd
        refine ⟨hnd.2, ?_⟩
        intro k hk
        have hkmem : k ∈ keysOf ((id, nm) :: rest) := by
          rw [keysOf, List.map_cons]
          exact List.mem_cons_of_mem _ hk
        rw [lookupA_insertA, hfresh k hkmem]
        have : id ≠ k := by
          intro he; exact hnd.1 (he ▸ hk)
        simp [Option.or, this]
    · rw [mergeLoop, hl]
      constructor
      · intro h; cases h
      · rintro ⟨hnd, hfresh⟩
        have := hfresh id (by simp [keysOf])
        rw [hl] at this; cases this

/-- On a successful `add_diag_entity`, the state change is exactly: append
the entity jobs / dtcs to the global maps and the entity to the sequence. -/
theorem add_diag_entity_ok_state (db : DataBase) (e : DiagEntity)
    (h : (db.add_diag_entity e).1 = Except.ok ()) :
    (db.add_diag_entity e).2 =
      { db with global_diag_job_ids := db.global_diag_job_ids ++ e.jobs,
                global_diag_dtc_ids := db.global_diag_dtc_ids ++ e.dtcs,
                diag_entities := db.diag_entities ++ [e] } := by
  rcases h1 : mergeLoop db.global_diag_job_ids e.jobs with ⟨g1, c1⟩
  rcases c1 with _ | ⟨id, nm, prev⟩
  · rcases h2 : mergeLoop db.global_diag_dtc_ids e.dtcs with ⟨g2, c2⟩
    rcases c2 with _ | ⟨id2, nm2, prev2⟩
    · have e1 := mergeLoop_none_eq e.jobs db.global_diag_job_ids g1 h1
      have e2 := mergeLoop_none_eq e.dtcs db.global_diag_dtc_ids g2 h2
      simp [DataBase.add_diag_entity, h1, h2, e1, e2]
    · exfalso
      rw [DataBase.add_diag_entity] at h
      rw [h1, h2] at h
      cases h
  · exfalso
    rw [DataBase.add_diag_entity] at h
    rw [h1] at h
    cases h

/-- `add_diag_entity` succeeds exactly when the entity job (resp. dtc) keys
are internally distinct and each is absent from the global job (resp. dtc)
map. -/
theorem add_diag_entity_isOk_iff (db : DataBase) (e : DiagEntity) :
    (db.add_diag_entity e).1.isOk = true ↔
      ((keysOf e.jobs).Nodup
        ∧ (∀ k ∈ keysOf e.jobs, lookupA db.global_diag_job_ids k = none)
        ∧ (keysOf e.dtcs).Nodup
        ∧ (∀ k ∈ keysOf e.dtcs, lookupA db.global_diag_dtc_ids k = none)) := by
  rcases h1 : mergeLoop db.global_diag_job_ids e.jobs with ⟨g1, c1⟩
  have i1 := mergeLoop_none_iff e.jobs db.global_diag_job_ids
  rw [h1] at i1
  rcases c1 with _ | ⟨id, nm, prev⟩
  · rcases h2 : mergeLoop db.global_diag_dtc_ids e.dtcs with ⟨g2, c2⟩
    have i2 := mergeLoop_none_iff e.dtcs db.global_diag_dtc_ids
    rw [h2] at i2
    rcases c2 with _ | ⟨id2, nm2, prev2⟩
    · simp only [DataBase.add_diag_entity, h1, h2]
      have j1 := i1.mp rfl
      have j2 := i2.mp rfl
      constructor
      · intro _
        exact ⟨j1.1, j1.2, j2.1, j2.2⟩
      · intro _
        rfl
    · simp only [DataBase.add_diag_entity, h1, h2]
      constructor
      · intro hcontra
        exact Bool.noConfusion hcontra
      · rintro ⟨_, _, hd1, hd2⟩
        have := i2.mpr ⟨hd1, hd2⟩
        simp at this
  · simp only [DataBase.add_diag_entity, h1]
    constructor
    · intro hcontra
      exact Bool.noConfusion hcontra
    · rintro ⟨hj1, hj2, _, _⟩
      have := i1.mpr ⟨hj1, hj2⟩
      simp at this

/-! ### C1: (non-)atomicity of diagnostic admission -/

/-- C1 counterexample: a failing `add_diag_entity` is not atomic.  With job 1
already registered by file1, admitting file2 with jobs 2 and 1 fails on
job 1, yet leaves file2 non-conflicting job 2 in the global job map and the
registry state changed. -/
theorem diag_atomicity_cex :
    errorOf ((DataBase.empty.add_diag_entity ⟨"file1", [(1, "jobA")], []⟩).2.add_diag_entity
        ⟨"file2", [(2, "jobX"), (1, "jobY")], []⟩).1 =
      some (CheckError.duplicateJobId 1 "jobY" "jobA")
    ∧ containsKey ((DataBase.empty.add_diag_entity
        ⟨"file1", [(1, "jobA")], []⟩).2).global_diag_job_ids 2 = false
    ∧ containsKey (((DataBase.empty.add_diag_entity ⟨"file1", [(1, "jobA")], []⟩).2.add_diag_entity
        ⟨"file2", [(2, "jobX"), (1, "jobY")], []⟩).2).global_diag_job_ids 2 = true
    ∧ ((DataBase.empty.add_diag_entity ⟨"file1", [(1, "jobA")], []⟩).2.add_diag_entity
        ⟨"file2", [(2, "jobX"), (1, "jobY")], []⟩).2 ≠
      (DataBase.empty.add_diag_entity ⟨"file1", [(1, "jobA")], []⟩).2 := by decide

/-- C1 (amended): when `add_diag_entity` fails, the entity is not appended
to the admitted sequence and the interface map is untouched, but the global
job/dtc maps keep every id of the entity that was merged before the
conflicting one was reached (no rollback): each map is extended by some
subset of the entity entries. -/
theorem add_diag_entity_failure_spec (db : DataBase) (e : DiagEntity)
    (h : (db.add_diag_entity e).1.isOk = false) :
    (db.add_diag_entity e).2.diag_entities = db.diag_entities
    ∧ (db.add_diag_entity e).2.someip_db = db.someip_db
    ∧ (∃ t, (db.add_diag_entity e).2.global_diag_job_ids =
          db.global_diag_job_ids ++ t ∧ ∀ p ∈ t, p ∈ e.jobs)
    ∧ (∃ t, (db.add_diag_entity e).2.global_diag_dtc_ids =
          db.global_diag_dtc_ids ++ t ∧ ∀ p ∈ t, p ∈ e.dtcs) := by
  rcases h1 : mergeLoop db.global_diag_job_ids e.jobs with ⟨g1, c1⟩
  rcases c1 with _ | ⟨id, nm, prev⟩
  · rcases h2 : mergeLoop db.global_diag_dtc_ids e.dtcs with ⟨g2, c2⟩
    rcases c2 with _ | ⟨id2, nm2, prev2⟩
    · exfalso
      simp only [DataBase.add_diag_entity, h1, h2] at h
      exact Bool.noConfusion h
    · have hj := mergeLoop_none_eq e.jobs db.global_diag_job_ids g1 h1
      have hd := mergeLoop_extend e.dtcs db.global_diag_dtc_ids
      rw [h2] at hd
      simp only [DataBase.add_diag_entity, h1, h2]
      refine ⟨by trivial, by trivial, ⟨e.jobs, by simp [hj], fun p hp => hp⟩, ?_⟩
      rcases hd with ⟨t, ht, hmem⟩
      exact ⟨t, by simpa using ht, hmem⟩
  · have hj := mergeLoop_extend e.jobs db.global_diag_job_ids
    rw [h1] at hj
    simp only [DataBase.add_diag_entity, h1]
    rcases hj with ⟨t, ht, hmem⟩
    exact ⟨by trivial, by trivial, ⟨t, by simpa using ht, hmem⟩, ⟨[], by simp, by simp⟩⟩

/-- Witness for the amended C1 at the counterexample input. -/
theorem add_diag_entity_failure_spec_witness :
    ((((DataBase.empty.add_diag_entity ⟨"file1", [(1, "jobA")], []⟩).2).add_diag_entity
        ⟨"file2", [(2, "jobX"), (1, "jobY")], []⟩).1.isOk = false)
    ∧ ((((DataBase.empty.add_diag_entity ⟨"file1", [(1, "jobA")], []⟩).2).add_diag_entity
        ⟨"file2", [(2, "jobX"), (1, "jobY")], []⟩).2.diag_entities =
        ((DataBase.empty.add_diag_entity ⟨"file1", [(1, "jobA")], []⟩).2).diag_entities
      ∧ (((DataBase.empty.add_diag_entity ⟨"file1", [(1, "jobA")], []⟩).2).add_diag_entity
        ⟨"file2", [(2, "jobX"), (1, "jobY")], []⟩).2.someip_db =
        ((DataBase.empty.add_diag_entity ⟨"file1", [(1, "jobA")], []⟩).2).someip_db
      ∧ (∃ t, (((DataBase.empty.add_diag_entity ⟨"file1", [(1, "jobA")], []⟩).2).add_diag_entity
          ⟨"file2", [(2, "jobX"), (1, "jobY")], []⟩).2.global_diag_job_ids =
            ((DataBase.empty.add_diag_entity ⟨"file1", [(1, "jobA")], []⟩).2).global_diag_job_ids ++ t
          ∧ ∀ p ∈ t, p ∈ (⟨"file2", [(2, "jobX"), (1, "jobY")], []⟩ : DiagEntity).jobs)
      ∧ (∃ t, (((DataBase.empty.add_diag_entity ⟨"file1", [(1, "jobA")], []⟩).2).add_diag_entity
          ⟨"file2", [(2, "jobX"), (1, "jobY")], []⟩).2.global_diag_dtc_ids =
            ((DataBase.empty.add_diag_entity ⟨"file1", [(1, "jobA")], []⟩).2).global_diag_dtc_ids ++ t
          ∧ ∀ p ∈ t, p ∈ (⟨"file2", [(2, "jobX"), (1, "jobY")], []⟩ : DiagEntity).dtcs)) :=
  ⟨by decide, add_diag_entity_failure_spec _ _ (by decide)⟩

/-! ### C2: the contribution invariant -/

/-- Registry states reachable from `DataBase.__init__` by successful
admissions only. -/
inductive ReachableOk : DataBase → Prop where
  | empty : ReachableOk DataBase.empty
  | addSomeip {db : DataBase} (e : SomeIpEntity) (hr : ReachableOk db)
      (hok : (db.add_someip_entity e).1.isOk = true) :
      ReachableOk (db.add_someip_entity e).2
  | addDiag {db : DataBase} (e : DiagEntity) (hr : ReachableOk db)
      (hok : (db.add_diag_entity e).1.isOk = true) :
      ReachableOk (db.add_diag_entity e).2

/-- The strong registry invariant: the global maps are exactly the
concatenation of the admitted entities contributions, with distinct keys. -/
def RegInv (db : DataBase) : Prop :=
  db.global_diag_job_ids = (db.diag_entities.map DiagEntity.jobs).flatten
  ∧ db.global_diag_dtc_ids = (db.diag_entities.map DiagEntity.dtcs).flatten
  ∧ (keysOf db.global_diag_job_ids).Nodup
  ∧ (keysOf db.global_diag_dtc_ids).Nodup

theorem keysOf_append {α : Type} (a b : OMap α) :
    keysOf (a ++ b) = keysOf a ++ keysOf b := by
  simp [keysOf]

theorem keysOf_flatten (ls : List (OMap String)) :
    keysOf ls.flatten = (ls.map keysOf).flatten := by
  induction ls with
  | nil => simp [keysOf]
  | cons m rest ih => simp [keysOf_append, ih]

theorem add_someip_preserves_diag_state (db : DataBase) (e : SomeIpEntity) :
    (db.add_someip_entity e).2.diag_entities = db.diag_entities
    ∧ (db.add_someip_entity e).2.global_diag_job_ids = db.global_diag_job_ids
    ∧ (db.add_someip_entity e).2.global_diag_dtc_ids = db.global_diag_dtc_ids := by
  rcases h : lookupA db.someip_db e.service_id with _ | dup <;>
    simp [DataBase.add_someip_entity, h]

theorem regInv_empty : RegInv DataBase.empty :=
  ⟨rfl, rfl, by simp [DataBase.empty, keysOf], by simp [DataBase.empty, keysOf]⟩

theorem regInv_addSomeip (db : DataBase) (e : SomeIpEntity) (h : RegInv db) :
    RegInv (db.add_someip_entity e).2 := by
  obtain ⟨hp1, hp2, hp3⟩ := add_someip_preserves_diag_state db e
  exact ⟨by rw [hp2, hp1]; exact h.1, by rw [hp3, hp1]; exact h.2.1,
    by rw [hp2]; exact h.2.2.1, by rw [hp3]; exact h.2.2.2⟩

theorem regInv_addDiag (db : DataBase) (e : DiagEntity) (h : RegInv db)
    (hok : (db.add_diag_entity e).1.isOk = true) :
    RegInv (db.add_diag_entity e).2 := by
  have hone : (db.add_diag_entity e).1 = Except.ok () := by
    rcases hh : (db.add_diag_entity e).1 with err | u
    · rw [hh] at hok; exact Bool.noConfusion hok
    · rfl
  have hstate := add_diag_entity_ok_state db e hone
  obtain ⟨hjn, hjf, hdn, hdf⟩ := (add_diag_entity_isOk_iff db e).mp hok
  have hjdisj : (keysOf db.global_diag_job_ids).Disjoint (keysOf e.jobs) := by
    intro a ha hb
    have := hjf a hb
    rw [← containsKey_iff_mem_keysOf] at ha
    rw [containsKey, this] at ha
    cases ha
  have hddisj : (keysOf db.global_diag_dtc_ids).Disjoint (keysOf e.dtcs) := by
    intro a ha hb
    have := hdf a hb
    rw [← containsKey_iff_mem_keysOf] at ha
    rw [containsKey, this] at ha
    cases ha
  rw [hstate]
  refine ⟨?_, ?_, ?_, ?_⟩
  · simp [h.1]
  · simp [h.2.1]
  · rw [keysOf_append, List.nodup_append]
    exact ⟨h.2.2.1, hjn, hjdisj⟩
  · rw [keysOf_append, List.nodup_append]
    exact ⟨h.2.2.2, hdn, hddisj⟩

theorem countP_contains_flatten (ls : List (OMap String)) (id : Int)
    (hnd : (keysOf ls.flatten).Nodup) (hmem : id ∈ keysOf ls.flatten) :
    ls.countP (fun m => containsKey m id) = 1 := by
  induction ls with
  | nil => simp [keysOf] at hmem
  | cons m rest ih =>
    rw [List.flatten_cons, keysOf_append] at hnd hmem
    have hparts := List.nodup_append.mp hnd
    rw [List.countP_cons]
    rcases List.mem_append.mp hmem with hm | hm
    · have hcont : containsKey m id = true :=
        (containsKey_iff_mem_keysOf m id).mpr hm
      have hzero : rest.countP (fun m2 => containsKey m2 id) = 0 := by
        rw [List.countP_eq_zero]
        intro m2 hm2 hc
        have hidm2 : id ∈ keysOf m2 := (containsKey_iff_mem_keysOf m2 id).mp hc
        have : id ∈ keysOf rest.flatten := by
          rw [keysOf_flatten, List.mem_flatten]
          exact ⟨keysOf m2, List.mem_map_of_mem keysOf hm2, hidm2⟩
        exact hparts.2.2 hm this
      rw [hzero, hcont]
      simp
    · have hnotm : containsKey m id = false := by
        rcases hcm : containsKey m id with _ | _
        · rfl
        · exact absurd hm (hparts.2.2 ((containsKey_iff_mem_keysOf m id).mp hcm))
      rw [ih hparts.2.1 hm, hnotm]
      simp

/-- C2 counterexample: the claimed invariant fails once a failed admission
is in the call sequence.  After file1 (job 1) is admitted and file2
(jobs 2 then 1) fails, id 2 sits in the global job map contributed by no
admitted entity. -/
theorem registry_contribution_cex :
    ((DataBase.empty.add_diag_entity ⟨"file1", [(1, "jobA")], []⟩).2.add_diag_entity
        ⟨"file2", [(2, "jobX"), (1, "jobY")], []⟩).1.isOk = false
    ∧ containsKey (((DataBase.empty.add_diag_entity ⟨"file1", [(1, "jobA")], []⟩).2.add_diag_entity
        ⟨"file2", [(2, "jobX"), (1, "jobY")], []⟩).2).global_diag_job_ids 2 = true
    ∧ (((DataBase.empty.add_diag_entity ⟨"file1", [(1, "jobA")], []⟩).2.add_diag_entity
        ⟨"file2", [(2, "jobX"), (1, "jobY")], []⟩).2).diag_entities.countP
        (fun ent => containsKey ent.jobs 2) = 0 := by decide

/-- C2 (amended): in every registry state reachable from the empty registry
by *successful* `add_someip_entity` / `add_diag_entity` calls, every id in
the global job (resp. dtc) map was contributed by exactly one admitted
diagnostic entity. -/
theorem registry_contribution_invariant (db : DataBase) (h : ReachableOk db)
    (id : Int) :
    (containsKey db.global_diag_job_ids id = true →
       db.diag_entities.countP (fun ent => containsKey ent.jobs id) = 1)
    ∧ (containsKey db.global_diag_dtc_ids id = true →
       db.diag_entities.countP (fun ent => containsKey ent.dtcs id) = 1) := by
  have hinv : RegInv db := by
    induction h with
    | empty => exact regInv_empty
    | addSomeip e hr hok ih => exact regInv_addSomeip _ e ih
    | addDiag e hr hok ih => exact regInv_addDiag _ e ih hok
  constructor
  · intro hc
    rw [containsKey_iff_mem_keysOf, hinv.1] at hc
    have h1 := countP_contains_flatten (db.diag_entities.map DiagEntity.jobs) id
      (by rw [← hinv.1]; exact hinv.2.2.1) hc
    rw [List.countP_map] at h1
    simpa [Function.comp] using h1
  · intro hc
    rw [containsKey_iff_mem_keysOf, hinv.2.1] at hc
    have h1 := countP_contains_flatten (db.diag_entities.map DiagEntity.dtcs) id
      (by rw [← hinv.2.1]; exact hinv.2.2.2) hc
    rw [List.countP_map] at h1
    simpa [Function.comp] using h1

/-- Witness for the amended C2 on a concrete reachable registry. -/
theorem registry_contribution_invariant_witness :
    containsKey ((DataBase.empty.add_diag_entity
        ⟨"file1", [(1, "jobA")], [(7, "faultZ")]⟩).2).global_diag_job_ids 1 = true
    ∧ ((DataBase.empty.add_diag_entity
        ⟨"file1", [(1, "jobA")], [(7, "faultZ")]⟩).2).diag_entities.countP
        (fun ent => containsKey ent.jobs 1) = 1 := by
  refine ⟨by decide, ?_⟩
  have hr : ReachableOk (DataBase.empty.add_diag_entity
      ⟨"file1", [(1, "jobA")], [(7, "faultZ")]⟩).2 :=
    ReachableOk.addDiag _ ReachableOk.empty (by decide)
  exact (registry_contribution_invariant _ hr 1).1 (by decide)

/-! ### C5: order-independence of conflict detection -/

theorem isOk_true_eq {α : Type} (r : Except CheckError α) (h : r.isOk = true) :
    ∃ a, r = Except.ok a := by
  rcases r with e | a
  · exact Bool.noConfusion h
  · exact ⟨a, rfl⟩

theorem isOk_true_eq_unit (r : Except CheckError Unit) (h : r.isOk = true) :
    r = Except.ok () := by
  rcases r with e | u
  · exact Bool.noConfusion h
  · rfl

/-- Two same-kind diagnostic entities share an id exactly when a job id or
a dtc id occurs in both. -/
def sharesDiagId (a b : DiagEntity) : Prop :=
  (∃ k, k ∈ keysOf a.jobs ∧ k ∈ keysOf b.jobs)
  ∨ (∃ k, k ∈ keysOf a.dtcs ∧ k ∈ keysOf b.dtcs)

theorem empty_add_diag_ok (a : DiagEntity)
    (h1 : (keysOf a.jobs).Nodup) (h2 : (keysOf a.dtcs).Nodup) :
    (DataBase.empty.add_diag_entity a).1.isOk = true :=
  (add_diag_entity_isOk_iff _ _).mpr
    ⟨h1, fun _ _ => rfl, h2, fun _ _ => rfl⟩

theorem diag_pair_fails_iff (a b : DiagEntity)
    (ha1 : (keysOf a.jobs).Nodup) (ha2 : (keysOf a.dtcs).Nodup)
    (hb1 : (keysOf b.jobs).Nodup) (hb2 : (keysOf b.dtcs).Nodup) :
    (((DataBase.empty.add_diag_entity a).2.add_diag_entity b).1.isOk = false ↔
      sharesDiagId a b) := by
  have hstate := add_diag_entity_ok_state DataBase.empty a
    (isOk_true_eq_unit _ (empty_add_diag_ok a ha1 ha2))
  have hjobs : (DataBase.empty.add_diag_entity a).2.global_diag_job_ids = a.jobs := by
    rw [hstate]; rfl
  have hdtcs : (DataBase.empty.add_diag_entity a).2.global_diag_dtc_ids = a.dtcs := by
    rw [hstate]; rfl
  have hiff := add_diag_entity_isOk_iff (DataBase.empty.add_diag_entity a).2 b
  rw [hjobs, hdtcs] at hiff
  rw [Bool.eq_false_iff]
  constructor
  · intro hfail
    by_contra hshare
    rw [sharesDiagId] at hshare
    push_neg at hshare
    refine hfail (hiff.mpr ⟨hb1, ?_, hb2, ?_⟩)
    · intro k hk
      rcases hl : lookupA a.jobs k with _ | v
      · rfl
      · exfalso
        have hmem : k ∈ keysOf a.jobs := by
          rw [← lookupA_isSome_iff, hl]; rfl
        exact hshare.1 k hmem hk
    · intro k hk
      rcases hl : lookupA a.dtcs k with _ | v
      · rfl
      · exfalso
        have hmem : k ∈ keysOf a.dtcs := by
          rw [← lookupA_isSome_iff, hl]; rfl
        exact hshare.2 k hmem hk
  · intro hshare hok
    obtain ⟨- , hfj, -, hfd⟩ := hiff.mp hok
    rcases hshare with ⟨k, hka, hkb⟩ | ⟨k, hka, hkb⟩
    · have := hfj k hkb
      rw [← lookupA_isSome_iff, this] at hka
      exact Bool.noConfusion hka
    · have := hfd k hkb
      rw [← lookupA_isSome_iff, this] at hka
      exact Bool.noConfusion hka

theorem add_someip_fails_iff (db : DataBase) (e : SomeIpEntity) :
    (db.add_someip_entity e).1.isOk = false ↔
      containsKey db.someip_db e.service_id = true := by
  rcases h : lookupA db.someip_db e.service_id with _ | dup <;>
    simp [DataBase.add_someip_entity, h, containsKey, Except.isOk, Except.toBool]

theorem someip_pair_fails_iff (a b : SomeIpEntity) :
    (((DataBase.empty.add_someip_entity a).2.add_someip_entity b).1.isOk = false ↔
      b.service_id = a.service_id) := by
  rw [add_someip_fails_iff]
  have hfirst : (DataBase.empty.add_someip_entity a).2.someip_db =
      [(a.service_id, a)] := rfl
  rw [hfirst, containsKey]
  by_cases h : a.service_id = b.service_id
  · simp [lookupA, h]
  · simp [lookupA, h]
    exact fun he => h he.symm

/-- C5: for two entities of the same kind admitted into an empty registry,
one order yields a conflict iff the other does (for diagnostic entities,
under the dict guarantee that each entity own key lists are duplicate-free).
-/
theorem conflict_detection_order_independent :
    (∀ a b : SomeIpEntity,
      (((DataBase.empty.add_someip_entity a).2.add_someip_entity b).1.isOk = false ↔
       ((DataBase.empty.add_someip_entity b).2.add_someip_entity a).1.isOk = false))
    ∧ (∀ a b : DiagEntity,
        (keysOf a.jobs).Nodup → (keysOf a.dtcs).Nodup →
        (keysOf b.jobs).Nodup → (keysOf b.dtcs).Nodup →
      (((DataBase.empty.add_diag_entity a).2.add_diag_entity b).1.isOk = false ↔
       ((DataBase.empty.add_diag_entity b).2.add_diag_entity a).1.isOk = false)) := by
  constructor
  · intro a b
    rw [someip_pair_fails_iff a b, someip_pair_fails_iff b a]
    exact eq_comm
  · intro a b ha1 ha2 hb1 hb2
    rw [diag_pair_fails_iff a b ha1 ha2 hb1 hb2,
        diag_pair_fails_iff b a hb1 hb2 ha1 ha2]
    rw [sharesDiagId, sharesDiagId]
    constructor
    · rintro (⟨k, h1, h2⟩ | ⟨k, h1, h2⟩)
      · exact Or.inl ⟨k, h2, h1⟩
      · exact Or.inr ⟨k, h2, h1⟩
    · rintro (⟨k, h1, h2⟩ | ⟨k, h1, h2⟩)
      · exact Or.inl ⟨k, h2, h1⟩
      · exact Or.inr ⟨k, h2, h1⟩

/-- Witness for C5: service-id collision in both orders, and a diagnostic
job-id collision in both orders. -/
theorem conflict_detection_order_independent_witness :
    ((((DataBase.empty.add_someip_entity ⟨"A", 100, [], []⟩).2.add_someip_entity
        ⟨"B", 100, [], []⟩).1.isOk = false ↔
      ((DataBase.empty.add_someip_entity ⟨"B", 100, [], []⟩).2.add_someip_entity
        ⟨"A", 100, [], []⟩).1.isOk = false))
    ∧ (keysOf ([(1, "x")] : OMap String)).Nodup
    ∧ ((((DataBase.empty.add_diag_entity ⟨"f1", [(1, "x")], []⟩).2.add_diag_entity
        ⟨"f2", [(1, "y")], []⟩).1.isOk = false ↔
      ((DataBase.empty.add_diag_entity ⟨"f2", [(1, "y")], []⟩).2.add_diag_entity
        ⟨"f1", [(1, "x")], []⟩).1.isOk = false)) :=
  ⟨conflict_detection_order_independent.1 ⟨"A", 100, [], []⟩ ⟨"B", 100, [], []⟩,
   by decide,
   conflict_detection_order_independent.2 ⟨"f1", [(1, "x")], []⟩ ⟨"f2", [(1, "y")], []⟩
     (by decide) (by decide) (by decide) (by decide)⟩

/-! ### Lemmas about the extractor accumulation loop -/

/-- The ids actually declared by the entries of a sub-mapping, in order. -/
def declaredIds (items : ItemList) : List Int :=
  items.filterMap (fun p => p.2)

/-- The id → name map an extraction loop produces when it does not raise:
entries lacking an id are skipped, the rest are kept in order. -/
def resolveItems (items : ItemList) : OMap String :=
  items.filterMap (fun p => p.2.map (fun i => (i, p.1)))

theorem bool_not_true {b : Bool} (h : ¬ b = true) : b = false := by
  rcases b with _ | _
  · rfl
  · exact absurd rfl h

theorem isOk_iff_exists_ok {α : Type} (r : Except CheckError α) :
    r.isOk = true ↔ ∃ a, r = Except.ok a := by
  rcases r with e | a
  · constructor
    · intro h; exact Bool.noConfusion h
    · rintro ⟨a, ha⟩; cases ha
  · exact ⟨fun _ => ⟨a, rfl⟩, fun _ => rfl⟩

theorem keysOf_resolveItems (items : ItemList) :
    keysOf (resolveItems items) = declaredIds items := by
  induction items with
  | nil => rfl
  | cons p rest ih =>
    rcases p with ⟨nm, oid⟩
    rcases oid with _ | id <;>
      simp [resolveItems, declaredIds, keysOf, List.filterMap_cons] at ih ⊢ <;>
      exact ih

theorem buildIdMap_isOk_iff (items : ItemList) :
    ∀ (acc : OMap String) (err : Int → CheckError),
    (buildIdMap acc items err).isOk = true ↔
      ((declaredIds items).Nodup
        ∧ ∀ i ∈ declaredIds items, containsKey acc i = false) := by
  induction items with
  | nil =>
    intro acc err
    simp [buildIdMap, declaredIds, Except.isOk, Except.toBool]
  | cons p rest ih =>
    intro acc err
    rcases p with ⟨nm, oid⟩
    rcases oid with _ | id
    · rw [buildIdMap, ih acc err]
      simp [declaredIds, List.filterMap_cons]
    · rw [buildIdMap]
      by_cases hc : containsKey acc id = true
      · rw [if_pos hc]
        constructor
        · intro h; exact Bool.noConfusion h
        · rintro ⟨hnd, hall⟩
          have := hall id (by simp [declaredIds, List.filterMap_cons])
          rw [this] at hc
          exact Bool.noConfusion hc
      · rw [if_neg hc]
        rw [ih (insertA acc id nm) err]
        have hdecl : declaredIds ((nm, some id) :: rest) = id :: declaredIds rest := by
          simp [declaredIds, List.filterMap_cons]
        rw [hdecl]
        constructor
        · rintro ⟨hnd, hall⟩
          have hid : id ∉ declaredIds rest := by
            intro hmem
            have := hall id hmem
            rw [containsKey_insertA] at this
            simp at this
          refine ⟨List.nodup_cons.mpr ⟨hid, hnd⟩, ?_⟩
          intro i hi
          rcases List.mem_cons.mp hi with hi | hi
          · rw [hi]; exact bool_not_true hc
          · have := hall i hi
            rw [containsKey_insertA] at this
            exact (Bool.or_eq_false_iff.mp this).1
        · rintro ⟨hnd, hall⟩
          obtain ⟨hid, hnd2⟩ := List.nodup_cons.mp hnd
          refine ⟨hnd2, ?_⟩
          intro i hi
          rw [containsKey_insertA, Bool.or_eq_false_iff]
          refine ⟨hall i (List.mem_cons_of_mem _ hi), ?_⟩
          simp only [decide_eq_false_iff_not]
          intro he
          exact hid (he ▸ hi)

theorem buildIdMap_ok_val (items : ItemList) :
    ∀ (acc : OMap String) (err : Int → CheckError) (m : OMap String),
    buildIdMap acc items err = Except.ok m → m = acc ++ resolveItems items := by
  induction items with
  | nil =>
    intro acc err m h
    rw [buildIdMap] at h
    cases h
    simp [resolveItems]
  | cons p rest ih =>
    intro acc err m h
    rcases p with ⟨nm, oid⟩
    rcases oid with _ | id
    · rw [buildIdMap] at h
      rw [ih acc err m h]
      simp [resolveItems, List.filterMap_cons]
    · rw [buildIdMap] at h
      by_cases hc : containsKey acc id = true
      · rw [if_pos hc] at h; cases h
      · rw [if_neg hc] at h
        rw [ih (insertA acc id nm) err m h]
        simp [insertA, resolveItems, List.filterMap_cons]

theorem buildIdMap_error_shape (items : ItemList) :
    ∀ (acc : OMap String) (err : Int → CheckError) (e : CheckError),
    buildIdMap acc items err = Except.error e →
      ∃ i, e = err i ∧ i ∈ declaredIds items := by
  induction items with
  | nil =>
    intro acc err e h
    rw [buildIdMap] at h
    cases h
  | cons p rest ih =>
    intro acc err e h
    rcases p with ⟨nm, oid⟩
    rcases oid with _ | id
    · rw [buildIdMap] at h
      obtain ⟨i, hi, hmem⟩ := ih acc err e h
      exact ⟨i, hi, by simpa [declaredIds, List.filterMap_cons] using hmem⟩
    · rw [buildIdMap] at h
      by_cases hc : containsKey acc id = true
      · rw [if_pos hc] at h
        cases h
        exact ⟨id, rfl, by simp [declaredIds, List.filterMap_cons]⟩
      · rw [if_neg hc] at h
        obtain ⟨i, hi, hmem⟩ := ih (insertA acc id nm) err e h
        refine ⟨i, hi, ?_⟩
        simp [declaredIds, List.filterMap_cons]
        right
        simpa [declaredIds] using hmem

@[simp] theorem isOk_ok {α : Type} (a : α) :
    (Except.ok a : Except CheckError α).isOk = true := rfl

@[simp] theorem isOk_error {α : Type} (e : CheckError) :
    (Except.error e : Except CheckError α).isOk = false := rfl

theorem except_bind_isOk {α β : Type} (x : Except CheckError α)
    (f : α → Except CheckError β) :
    (x >>= f).isOk = true ↔ ∃ a, x = Except.ok a ∧ (f a).isOk = true := by
  rcases x with e | a
  · simp [Bind.bind, Except.bind]
  · simp [Bind.bind, Except.bind]

theorem containsKey_nil (i : Int) : containsKey ([] : OMap String) i = false := rfl

/-! ### Lemmas about the `someip` extraction loop -/

theorem processServices_isOk_iff (l : List (String × ServiceData)) :
    (processServices l).isOk = true ↔
      ∀ p ∈ l, p.2.service_id.isSome = true →
        (declaredIds p.2.methods).Nodup ∧ (declaredIds p.2.events).Nodup := by
  induction l with
  | nil => simp [processServices]
  | cons p rest ih =>
    rcases p with ⟨nm, sd⟩
    rcases hs : sd.service_id with _ | sid
    · simp only [processServices, hs]
      rw [ih]
      simp only [List.forall_mem_cons, hs]
      simp
    · simp only [processServices, hs, except_bind_isOk, isOk_ok, and_true,
        exists_and_right]
      rw [← isOk_iff_exists_ok, ← isOk_iff_exists_ok, ← isOk_iff_exists_ok]
      rw [buildIdMap_isOk_iff, buildIdMap_isOk_iff, ih]
      simp only [List.forall_mem_cons, hs, containsKey_nil]
      simp
      tauto

theorem processServices_ok_shape (l : List (String × ServiceData)) :
    ∀ es, processServices l = Except.ok es →
      es = (l.filter (fun p => p.2.service_id.isSome)).map
        (fun p => ⟨p.1, p.2.service_id.getD 0,
                   resolveItems p.2.methods, resolveItems p.2.events⟩) := by
  induction l with
  | nil =>
    intro es h
    rw [processServices] at h
    cases h
    rfl
  | cons p rest ih =>
    intro es h
    rcases p with ⟨nm, sd⟩
    rcases hs : sd.service_id with _ | sid
    · simp only [processServices, hs] at h
      rw [ih es h]
      simp [List.filter_cons, hs]
    · simp only [processServices, hs] at h
      rcases hm : buildIdMap [] sd.methods (fun i => CheckError.duplicateMethodId i nm)
        with e1 | ms
      · rw [hm] at h; simp [Bind.bind, Except.bind] at h
      rw [hm] at h
      rcases he : buildIdMap [] sd.events (fun i => CheckError.duplicateEventId i nm)
        with e2 | evs
      · rw [he] at h; simp [Bind.bind, Except.bind] at h
      rw [he] at h
      rcases hr : processServices rest with e3 | tail
      · rw [hr] at h; simp [Bind.bind, Except.bind] at h
      rw [hr] at h
      simp only [Bind.bind, Except.bind] at h
      cases h
      have hmv := buildIdMap_ok_val sd.methods [] _ ms hm
      have hev := buildIdMap_ok_val sd.events [] _ evs he
      rw [ih tail hr]
      simp [List.filter_cons, hs, hmv, hev]

theorem processServices_error_shape (l : List (String × ServiceData)) :
    ∀ e, processServices l = Except.error e →
      ∃ i nm, e = CheckError.duplicateMethodId i nm
        ∨ e = CheckError.duplicateEventId i nm := by
  induction l with
  | nil =>
    intro e h
    rw [processServices] at h
    cases h
  | cons p rest ih =>
    intro e h
    rcases p with ⟨nm, sd⟩
    rcases hs : sd.service_id with _ | sid
    · simp only [processServices, hs] at h
      exact ih e h
    · simp only [processServices, hs] at h
      rcases hm : buildIdMap [] sd.methods (fun i => CheckError.duplicateMethodId i nm)
        with e1 | ms
      · rw [hm] at h
        simp only [Bind.bind, Except.bind] at h
        cases h
        obtain ⟨i, hi, -⟩ := buildIdMap_error_shape sd.methods [] _ e hm
        exact ⟨i, nm, Or.inl hi⟩
      rw [hm] at h
      rcases he : buildIdMap [] sd.events (fun i => CheckError.duplicateEventId i nm)
        with e2 | evs
      · rw [he] at h
        simp only [Bind.bind, Except.bind] at h
        cases h
        obtain ⟨i, hi, -⟩ := buildIdMap_error_shape sd.events [] _ e he
        exact ⟨i, nm, Or.inr hi⟩
      rw [he] at h
      rcases hr : processServices rest with e3 | tail
      · rw [hr] at h
        simp only [Bind.bind, Except.bind] at h
        cases h
        exact ih e hr
      · rw [hr] at h
        simp only [Bind.bind, Except.bind] at h
        cases h

theorem processServices_filter (l : List (String × ServiceData)) :
    processServices l =
      processServices (l.filter (fun p => p.2.service_id.isSome)) := by
  induction l with
  | nil => rfl
  | cons p rest ih =>
    rcases p with ⟨nm, sd⟩
    rcases hs : sd.service_id with _ | sid
    · have hcond : ¬ ((fun p : String × ServiceData => p.2.service_id.isSome) (nm, sd) = true) := by
        simp [hs]
      rw [List.filter_cons, if_neg hcond]
      simp only [processServices, hs]
      exact ih
    · have hcond : (fun p : String × ServiceData => p.2.service_id.isSome) (nm, sd) = true := by
        simp [hs]
      rw [List.filter_cons, if_pos hcond]
      simp only [processServices, hs, ih]

/-! ### C4: scoped uniqueness inside one interface -/

/-- C4: interface extraction succeeds exactly when, inside each block that
declares a service id, the declared method ids are pairwise distinct and
the declared event ids are pairwise distinct — a method id equal to an
event id of the same block is never a failure; every failure is a
duplicate-method-id or duplicate-event-id error; and every extracted
entity has pairwise-distinct method ids and pairwise-distinct event ids. -/
theorem process_someip_scoped_uniqueness (data : Document) :
    ((process_someip_data data).isOk = true ↔
      ∀ p ∈ data.someip.getD [], p.2.service_id.isSome = true →
        (declaredIds p.2.methods).Nodup ∧ (declaredIds p.2.events).Nodup)
    ∧ (∀ e, process_someip_data data = Except.error e →
        ∃ i nm, e = CheckError.duplicateMethodId i nm
          ∨ e = CheckError.duplicateEventId i nm)
    ∧ (∀ es, process_someip_data data = Except.ok es →
        ∀ ent ∈ es, (keysOf ent.methods).Nodup ∧ (keysOf ent.events).Nodup) := by
  refine ⟨processServices_isOk_iff _, processServices_error_shape _, ?_⟩
  intro es hok ent hent
  have hshape := processServices_ok_shape (data.someip.getD []) es hok
  subst hshape
  obtain ⟨p, hp, hpe⟩ := List.mem_map.mp hent
  obtain ⟨hpl, hpsome⟩ := List.mem_filter.mp hp
  have hiff := (processServices_isOk_iff (data.someip.getD [])).mp
    (by show (process_someip_data data).isOk = true; rw [hok]; rfl)
  have hnd := hiff p hpl hpsome
  constructor
  · rw [← hpe]
    show (keysOf (resolveItems p.2.methods)).Nodup
    rw [keysOf_resolveItems]
    exact hnd.1
  · rw [← hpe]
    show (keysOf (resolveItems p.2.events)).Nodup
    rw [keysOf_resolveItems]
    exact hnd.2

/-- Witness for C4: a block whose method id equals its event id extracts
without error. -/
theorem process_someip_scoped_uniqueness_witness :
    (process_someip_data
      ⟨some [("S", ⟨some 100, [("m", some 1)], [("ev", some 1)]⟩)], none⟩).isOk = true :=
  (process_someip_scoped_uniqueness
    ⟨some [("S", ⟨some 100, [("m", some 1)], [("ev", some 1)]⟩)], none⟩).1.mpr
    (by decide)

/-! ### C8: silent skipping, output order, per-block independence -/

/-- C8: blocks without a service-id field are skipped silently (extraction
equals extraction of the filtered block list), a successful extraction
returns exactly one entity per remaining block in iteration order, and
success is a per-block property (no cross-interface validation). -/
theorem process_someip_skip_order (data : Document) :
    process_someip_data data =
      processServices ((data.someip.getD []).filter (fun p => p.2.service_id.isSome))
    ∧ (∀ es, process_someip_data data = Except.ok es →
        es = ((data.someip.getD []).filter (fun p => p.2.service_id.isSome)).map
          (fun p => ⟨p.1, p.2.service_id.getD 0,
                     resolveItems p.2.methods, resolveItems p.2.events⟩))
    ∧ ((process_someip_data data).isOk = true ↔
        ∀ p ∈ (data.someip.getD []).filter (fun p => p.2.service_id.isSome),
          (processServices [p]).isOk = true) := by
  refine ⟨processServices_filter _, processServices_ok_shape _, ?_⟩
  constructor
  · intro h p hp
    rw [processServices_isOk_iff]
    intro q hq hqs
    rw [List.mem_singleton.mp hq]
    obtain ⟨hpl, -⟩ := List.mem_filter.mp hp
    rw [List.mem_singleton.mp hq] at hqs
    exact (processServices_isOk_iff (data.someip.getD [])).mp h p hpl hqs
  · intro h
    rw [show (process_someip_data data).isOk =
          (processServices (data.someip.getD [])).isOk from rfl,
        processServices_isOk_iff]
    intro p hp hps
    have hpf : p ∈ (data.someip.getD []).filter (fun p => p.2.service_id.isSome) :=
      List.mem_filter.mpr ⟨hp, hps⟩
    exact (processServices_isOk_iff [p]).mp (h p hpf) p (by simp) hps

/-- Witness for C8: a block with no service id is dropped, the declared one
is kept. -/
theorem process_someip_skip_order_witness :
    process_someip_data ⟨some [("skipme", ⟨none, [("m", some 5)], []⟩),
        ("S", ⟨some 7, [], []⟩)], none⟩ =
      processServices (([("skipme", ⟨none, [("m", some 5)], []⟩),
        ("S", ⟨some 7, [], []⟩)] : List (String × ServiceData)).filter
          (fun p => p.2.service_id.isSome))
    ∧ ([⟨"S", 7, [], []⟩] : List SomeIpEntity) =
      (([("skipme", ⟨none, [("m", some 5)], []⟩),
        ("S", ⟨some 7, [], []⟩)] : List (String × ServiceData)).filter
          (fun p => p.2.service_id.isSome)).map
        (fun p => ⟨p.1, p.2.service_id.getD 0,
                   resolveItems p.2.methods, resolveItems p.2.events⟩) :=
  ⟨(process_someip_skip_order ⟨some [("skipme", ⟨none, [("m", some 5)], []⟩),
      ("S", ⟨some 7, [], []⟩)], none⟩).1,
   (process_someip_skip_order ⟨some [("skipme", ⟨none, [("m", some 5)], []⟩),
      ("S", ⟨some 7, [], []⟩)], none⟩).2.1 [⟨"S", 7, [], []⟩] rfl⟩

/-! ### C7: diagnostic extraction emptiness -/

/-- C7 counterexample: a document whose (truthy) diag section declares the
same sub_service_id for two jobs makes `process_diag_data` raise instead of
returning an entity, refuting the claim that a document with nonempty
diagnostic content always yields exactly one entity and no error. -/
theorem process_diag_data_cex :
    (⟨some [("a", some 1), ("b", some 1)], none, false⟩ : DiagContent).isTruthy = true
    ∧ process_diag_data
        ⟨none, some ⟨some [("a", some 1), ("b", some 1)], none, false⟩⟩ "f.json" =
        Except.error (CheckError.duplicateFileJobId 1 "f.json") :=
  ⟨rfl, rfl⟩

/-- C7 (amended): if the diag key is absent or its section is empty, no
entity and no error result; otherwise, when the declared job ids and dtc
ids are each duplicate-free the extractor returns exactly one entity
labelled with the document origin, job ids taken from `sub_service_id` and
dtc ids from `id` with id-less entries skipped — and when a declared id
repeats inside the document it raises a duplicate job/dtc id error
instead. -/
theorem process_diag_data_spec (data : Document) (fn : String) :
    ((data.diag = none ∨ ∃ c, data.diag = some c ∧ c.isTruthy = false) →
       process_diag_data data fn = Except.ok none)
    ∧ (∀ c, data.diag = some c → c.isTruthy = true →
        ((((declaredIds (c.job.getD [])).Nodup
            ∧ (declaredIds (c.dtc.getD [])).Nodup)) →
           process_diag_data data fn =
             Except.ok (some ⟨fn, resolveItems (c.job.getD []),
               resolveItems (c.dtc.getD [])⟩))
        ∧ (¬((declaredIds (c.job.getD [])).Nodup
              ∧ (declaredIds (c.dtc.getD [])).Nodup) →
           ∃ i, process_diag_data data fn =
                  Except.error (CheckError.duplicateFileJobId i fn)
             ∨ process_diag_data data fn =
                  Except.error (CheckError.duplicateFileDtcId i fn))) := by
  constructor
  · rintro (h | ⟨c, hc, ht⟩)
    · simp [process_diag_data, h]
    · simp [process_diag_data, hc, ht]
  · intro c hc ht
    constructor
    · rintro ⟨h1, h2⟩
      obtain ⟨m1, hm1⟩ := (isOk_iff_exists_ok _).mp
        ((buildIdMap_isOk_iff (c.job.getD []) []
          (fun i => CheckError.duplicateFileJobId i fn)).mpr ⟨h1, fun i _ => rfl⟩)
      obtain ⟨m2, hm2⟩ := (isOk_iff_exists_ok _).mp
        ((buildIdMap_isOk_iff (c.dtc.getD []) []
          (fun i => CheckError.duplicateFileDtcId i fn)).mpr ⟨h2, fun i _ => rfl⟩)
      have hv1 := buildIdMap_ok_val (c.job.getD []) [] _ m1 hm1
      have hv2 := buildIdMap_ok_val (c.dtc.getD []) [] _ m2 hm2
      simp [process_diag_data, hc, ht, hm1, hm2, Bind.bind, Except.bind, hv1, hv2]
    · intro hneg
      by_cases h1 : (declaredIds (c.job.getD [])).Nodup
      · have h2 : ¬ (declaredIds (c.dtc.getD [])).Nodup := fun hx => hneg ⟨h1, hx⟩
        obtain ⟨m1, hm1⟩ := (isOk_iff_exists_ok _).mp
          ((buildIdMap_isOk_iff (c.job.getD []) []
            (fun i => CheckError.duplicateFileJobId i fn)).mpr ⟨h1, fun i _ => rfl⟩)
        rcases hm2 : buildIdMap [] (c.dtc.getD [])
            (fun i => CheckError.duplicateFileDtcId i fn) with e2 | m2
        · obtain ⟨i, hi, -⟩ := buildIdMap_error_shape (c.dtc.getD []) [] _ e2 hm2
          subst hi
          refine ⟨i, Or.inr ?_⟩
          simp [process_diag_data, hc, ht, hm1, hm2, Bind.bind, Except.bind]
        · exfalso
          exact h2 ((buildIdMap_isOk_iff (c.dtc.getD []) [] _).mp
            (by rw [hm2]; rfl)).1
      · rcases hm1 : buildIdMap [] (c.job.getD [])
            (fun i => CheckError.duplicateFileJobId i fn) with e1 | m1
        · obtain ⟨i, hi, -⟩ := buildIdMap_error_shape (c.job.getD []) [] _ e1 hm1
          subst hi
          refine ⟨i, Or.inl ?_⟩
          simp [process_diag_data, hc, ht, hm1, Bind.bind, Except.bind]
        · exfalso
          exact h1 ((buildIdMap_isOk_iff (c.job.getD []) [] _).mp
            (by rw [hm1]; rfl)).1

/-- Witness for the amended C7: an absent diag key yields no entity; a
document with one id-bearing job and one id-less job yields exactly one
entity with the id-less entry skipped. -/
theorem process_diag_data_spec_witness :
    process_diag_data ⟨none, none⟩ "g.json" = Except.ok none
    ∧ process_diag_data
        ⟨none, some ⟨some [("j1", some 3), ("nix", none)], none, false⟩⟩ "g.json" =
        Except.ok (some ⟨"g.json", [(3, "j1")], []⟩) :=
  ⟨(process_diag_data_spec ⟨none, none⟩ "g.json").1 (Or.inl rfl),
   ((process_diag_data_spec
      ⟨none, some ⟨some [("j1", some 3), ("nix", none)], none, false⟩⟩ "g.json").2
      ⟨some [("j1", some 3), ("nix", none)], none, false⟩ rfl rfl).1 (by decide)⟩

/-! ### C9: ids are opaque — equivariance under injective renaming

The code never inspects an id beyond equality tests, so renaming every id
by an injective function commutes with extraction and admission.  In
particular negative ids and zero behave exactly like any other integer. -/

/-- Rename the keys of an id → name map. -/
def renameMap (f : Int → Int) (m : OMap String) : OMap String :=
  m.map (fun p => (f p.1, p.2))

/-- Rename every id mentioned by an interface entity. -/
def SomeIpEntity.rename (f : Int → Int) (e : SomeIpEntity) : SomeIpEntity :=
  ⟨e.service_name, f e.service_id, renameMap f e.methods, renameMap f e.events⟩

/-- Rename every id mentioned by a diagnostic entity. -/
def DiagEntity.rename (f : Int → Int) (e : DiagEntity) : DiagEntity :=
  ⟨e.name, renameMap f e.jobs, renameMap f e.dtcs⟩

/-- Rename every id in the registry state. -/
def DataBase.rename (f : Int → Int) (db : DataBase) : DataBase :=
  ⟨db.someip_db.map (fun p => (f p.1, SomeIpEntity.rename f p.2)),
   db.diag_entities.map (DiagEntity.rename f),
   renameMap f db.global_diag_job_ids,
   renameMap f db.global_diag_dtc_ids⟩

/-- Rename the declared ids of a method/event/job/dtc sub-mapping. -/
def renameItems (f : Int → Int) (items : ItemList) : ItemList :=
  items.map (fun p => (p.1, p.2.map f))

/-- Rename every id in an interface block. -/
def ServiceData.rename (f : Int → Int) (sd : ServiceData) : ServiceData :=
  ⟨sd.service_id.map f, renameItems f sd.methods, renameItems f sd.events⟩

/-- Rename every id in a diag section. -/
def DiagContent.rename (f : Int → Int) (c : DiagContent) : DiagContent :=
  ⟨c.job.map (renameItems f), c.dtc.map (renameItems f), c.hasOtherKeys⟩

/-- Rename every id in a document. -/
def Document.rename (f : Int → Int) (d : Document) : Document :=
  ⟨d.someip.map (List.map (fun p => (p.1, ServiceData.rename f p.2))),
   d.diag.map (DiagContent.rename f)⟩

/-- Rename the id carried by an error. -/
def CheckError.rename (f : Int → Int) : CheckError → CheckError
  | CheckError.duplicateServiceId id a b => CheckError.duplicateServiceId (f id) a b
  | CheckError.duplicateJobId id a b => CheckError.duplicateJobId (f id) a b
  | CheckError.duplicateDtcId id a b => CheckError.duplicateDtcId (f id) a b
  | CheckError.duplicateMethodId id a => CheckError.duplicateMethodId (f id) a
  | CheckError.duplicateEventId id a => CheckError.duplicateEventId (f id) a
  | CheckError.duplicateFileJobId id a => CheckError.duplicateFileJobId (f id) a
  | CheckError.duplicateFileDtcId id a => CheckError.duplicateFileDtcId (f id) a
  | CheckError.contentMismatch a b => CheckError.contentMismatch a b

/-- Map both sides of a fallible result. -/
def mapExc {α β : Type} (g : CheckError → CheckError) (h : α → β) :
    Except CheckError α → Except CheckError β
  | Except.error e => Except.error (g e)
  | Except.ok a => Except.ok (h a)

@[simp] theorem renameMap_nil (f : Int → Int) : renameMap f [] = [] := rfl

@[simp] theorem renameMap_cons (f : Int → Int) (k : Int) (v : String)
    (rest : OMap String) :
    renameMap f ((k, v) :: rest) = (f k, v) :: renameMap f rest := rfl

theorem renameMap_insertA (f : Int → Int) (m : OMap String) (k : Int) (v : String) :
    renameMap f (insertA m k v) = insertA (renameMap f m) (f k) v := by
  simp [renameMap, insertA]

theorem lookupA_renameKV {α β : Type} (f : Int → Int) (hf : Function.Injective f)
    (g : α → β) (m : OMap α) (i : Int) :
    lookupA (m.map (fun p => (f p.1, g p.2))) (f i) = (lookupA m i).map g := by
  induction m with
  | nil => rfl
  | cons p rest ih =>
    rcases p with ⟨k, v⟩
    rw [List.map_cons]
    by_cases h : k = i
    · simp only [lookupA]
      rw [if_pos (by rw [h]), if_pos h]
      rfl
    · have hne : ¬ f k = f i := fun he => h (hf he)
      simp only [lookupA]
      rw [if_neg hne, if_neg h]
      exact ih

theorem lookupA_renameMap (f : Int → Int) (hf : Function.Injective f)
    (m : OMap String) (i : Int) :
    lookupA (renameMap f m) (f i) = lookupA m i := by
  induction m with
  | nil => rfl
  | cons p rest ih =>
    rcases p with ⟨k, v⟩
    rw [renameMap_cons]
    by_cases h : k = i
    · simp only [lookupA]
      rw [if_pos (by rw [h]), if_pos h]
    · have hne : ¬ f k = f i := fun he => h (hf he)
      simp only [lookupA]
      rw [if_neg hne, if_neg h]
      exact ih

theorem containsKey_renameMap (f : Int → Int) (hf : Function.Injective f)
    (m : OMap String) (i : Int) :
    containsKey (renameMap f m) (f i) = containsKey m i := by
  rw [containsKey, containsKey, lookupA_renameMap f hf]

theorem mergeLoop_rename (f : Int → Int) (hf : Function.Injective f)
    (entries : OMap String) :
    ∀ g : OMap String,
      mergeLoop (renameMap f g) (renameMap f entries) =
        (renameMap f (mergeLoop g entries).1,
         (mergeLoop g entries).2.map (fun t => (f t.1, t.2.1, t.2.2))) := by
  induction entries with
  | nil => intro g; rfl
  | cons p rest ih =>
    intro g
    rcases p with ⟨id, nm⟩
    rcases hl : lookupA g id with _ | prev
    · have hl2 : lookupA (renameMap f g) (f id) = none := by
        rw [lookupA_renameMap f hf, hl]
      rw [renameMap_cons]
      rw [mergeLoop, hl2]
      rw [← renameMap_insertA]
      rw [ih (insertA g id nm)]
      rw [mergeLoop, hl]
    · have hl2 : lookupA (renameMap f g) (f id) = some prev := by
        rw [lookupA_renameMap f hf, hl]
      rw [renameMap_cons]
      rw [mergeLoop, hl2, mergeLoop, hl]
      rfl

theorem add_someip_rename (f : Int → Int) (hf : Function.Injective f)
    (db : DataBase) (e : SomeIpEntity) :
    (db.rename f).add_someip_entity (e.rename f) =
      (mapExc (CheckError.rename f) id (db.add_someip_entity e).1,
       (db.add_someip_entity e).2.rename f) := by
  have hl : lookupA (db.rename f).someip_db (e.rename f).service_id =
      (lookupA db.someip_db e.service_id).map (SomeIpEntity.rename f) :=
    lookupA_renameKV f hf (SomeIpEntity.rename f) db.someip_db e.service_id
  rcases h : lookupA db.someip_db e.service_id with _ | dup
  · rw [h] at hl
    simp only [DataBase.add_someip_entity]
    rw [hl, h]
    simp [mapExc, insertA, DataBase.rename, SomeIpEntity.rename]
  · rw [h] at hl
    simp only [DataBase.add_someip_entity]
    rw [hl, h]
    simp [mapExc, CheckError.rename, DataBase.rename, SomeIpEntity.rename]

theorem add_diag_rename (f : Int → Int) (hf : Function.Injective f)
    (db : DataBase) (e : DiagEntity) :
    (db.rename f).add_diag_entity (e.rename f) =
      (mapExc (CheckError.rename f) id (db.add_diag_entity e).1,
       (db.add_diag_entity e).2.rename f) := by
  have hm1 : mergeLoop (db.rename f).global_diag_job_ids (e.rename f).jobs =
      (renameMap f (mergeLoop db.global_diag_job_ids e.jobs).1,
       (mergeLoop db.global_diag_job_ids e.jobs).2.map
         (fun t => (f t.1, t.2.1, t.2.2))) :=
    mergeLoop_rename f hf e.jobs db.global_diag_job_ids
  have hm2 : mergeLoop (db.rename f).global_diag_dtc_ids (e.rename f).dtcs =
      (renameMap f (mergeLoop db.global_diag_dtc_ids e.dtcs).1,
       (mergeLoop db.global_diag_dtc_ids e.dtcs).2.map
         (fun t => (f t.1, t.2.1, t.2.2))) :=
    mergeLoop_rename f hf e.dtcs db.global_diag_dtc_ids
  rcases h1 : mergeLoop db.global_diag_job_ids e.jobs with ⟨g1, c1⟩
  rw [h1] at hm1
  rcases c1 with _ | ⟨id, nm, prev⟩
  · rcases h2 : mergeLoop db.global_diag_dtc_ids e.dtcs with ⟨g2, c2⟩
    rw [h2] at hm2
    rcases c2 with _ | ⟨id2, nm2, prev2⟩
    · simp only [DataBase.add_diag_entity]
      rw [hm1, hm2, h1, h2]
      simp [mapExc, DataBase.rename, DiagEntity.rename]
    · simp only [DataBase.add_diag_entity]
      rw [hm1, hm2, h1, h2]
      simp [mapExc, CheckError.rename, DataBase.rename, DiagEntity.rename]
  · simp only [DataBase.add_diag_entity]
    rw [hm1, h1]
    simp [mapExc, CheckError.rename, DataBase.rename, DiagEntity.rename]

@[simp] theorem renameItems_nil (f : Int → Int) : renameItems f [] = [] := rfl

@[simp] theorem renameItems_cons (f : Int → Int) (nm : String) (oid : Option Int)
    (rest : ItemList) :
    renameItems f ((nm, oid) :: rest) = (nm, oid.map f) :: renameItems f rest := rfl

theorem ite_bool_true {α : Type} (a b : α) :
    (if (true : Bool) = true then a else b) = a := rfl

theorem ite_bool_false {α : Type} (a b : α) :
    (if (false : Bool) = true then a else b) = b := rfl

theorem buildIdMap_rename (f : Int → Int) (hf : Function.Injective f)
    (items : ItemList) :
    ∀ (acc : OMap String) (err1 err2 : Int → CheckError),
      (∀ i, err2 (f i) = CheckError.rename f (err1 i)) →
      buildIdMap (renameMap f acc) (renameItems f items) err2 =
        mapExc (CheckError.rename f) (renameMap f) (buildIdMap acc items err1) := by
  induction items with
  | nil => intro acc err1 err2 herr; rfl
  | cons p rest ih =>
    intro acc err1 err2 herr
    rcases p with ⟨nm, oid⟩
    rcases oid with _ | id
    · rw [renameItems_cons]
      rw [show Option.map f (none : Option Int) = none from rfl]
      rw [buildIdMap, buildIdMap]
      exact ih acc err1 err2 herr
    · rw [renameItems_cons]
      rw [show Option.map f (some id) = some (f id) from rfl]
      rw [buildIdMap, buildIdMap]
      rcases hc : containsKey acc id with _ | _
      · have hc2 : containsKey (renameMap f acc) (f id) = false := by
          rw [containsKey_renameMap f hf, hc]
        rw [hc2, ite_bool_false, ite_bool_false]
        rw [← renameMap_insertA]
        exact ih (insertA acc id nm) err1 err2 herr
      · have hc2 : containsKey (renameMap f acc) (f id) = true := by
          rw [containsKey_renameMap f hf, hc]
        rw [hc2, ite_bool_true, ite_bool_true]
        rw [herr id]
        rfl

theorem processServices_rename (f : Int → Int) (hf : Function.Injective f)
    (l : List (String × ServiceData)) :
    processServices (l.map (fun p => (p.1, ServiceData.rename f p.2))) =
      mapExc (CheckError.rename f) (List.map (SomeIpEntity.rename f))
        (processServices l) := by
  induction l with
  | nil => rfl
  | cons p rest ih =>
    rcases p with ⟨nm, sd⟩
    rw [List.map_cons]
    rcases hs : sd.service_id with _ | sid
    · have hs2 : (ServiceData.rename f sd).service_id = none := by
        rw [ServiceData.rename, hs]; rfl
      simp only [processServices, hs2, hs]
      exact ih
    · have hs2 : (ServiceData.rename f sd).service_id = some (f sid) := by
        rw [ServiceData.rename, hs]; rfl
      simp only [processServices, hs2, hs]
      have hbm := buildIdMap_rename f hf sd.methods []
        (fun i => CheckError.duplicateMethodId i nm)
        (fun i => CheckError.duplicateMethodId i nm) (fun i => rfl)
      have hbe := buildIdMap_rename f hf sd.events []
        (fun i => CheckError.duplicateEventId i nm)
        (fun i => CheckError.duplicateEventId i nm) (fun i => rfl)
      have hmeth : (ServiceData.rename f sd).methods = renameItems f sd.methods := rfl
      have hev : (ServiceData.rename f sd).events = renameItems f sd.events := rfl
      rw [hmeth, hev]
      rw [show renameMap f [] = [] from rfl] at hbm hbe
      rcases hm : buildIdMap [] sd.methods
          (fun i => CheckError.duplicateMethodId i nm) with e1 | ms
      · rw [hm] at hbm
        rw [hbm]
        simp [Bind.bind, Except.bind, mapExc]
      · rw [hm] at hbm
        rw [hbm]
        simp only [Bind.bind, Except.bind, mapExc]
        rcases he : buildIdMap [] sd.events
            (fun i => CheckError.duplicateEventId i nm) with e2 | evs
        · rw [he] at hbe
          rw [hbe]
          simp [mapExc]
        · rw [he] at hbe
          rw [hbe]
          simp only [mapExc]
          rcases hr : processServices rest with e3 | tail
          · rw [hr] at ih
            rw [ih]
            simp [mapExc]
          · rw [hr] at ih
            rw [ih]
            simp [mapExc, SomeIpEntity.rename]

theorem process_someip_data_rename (f : Int → Int) (hf : Function.Injective f)
    (d : Document) :
    process_someip_data (d.rename f) =
      mapExc (CheckError.rename f) (List.map (SomeIpEntity.rename f))
        (process_someip_data d) := by
  rcases hd : d.someip with _ | l
  · have h1 : (d.rename f).someip = none := by
      rw [Document.rename, hd]; rfl
    rw [process_someip_data, process_someip_data, h1, hd]
    rfl
  · have h1 : (d.rename f).someip =
        some (l.map (fun p => (p.1, ServiceData.rename f p.2))) := by
      rw [Document.rename, hd]; rfl
    rw [process_someip_data, process_someip_data, h1, hd]
    exact processServices_rename f hf l

theorem process_diag_data_rename (f : Int → Int) (hf : Function.Injective f)
    (d : Document) (fn : String) :
    process_diag_data (d.rename f) fn =
      mapExc (CheckError.rename f) (Option.map (DiagEntity.rename f))
        (process_diag_data d fn) := by
  rcases hd : d.diag with _ | c
  · have h1 : (d.rename f).diag = none := by
      rw [Document.rename, hd]; rfl
    rw [process_diag_data, process_diag_data, h1, hd]
    rfl
  · have h1 : (d.rename f).diag = some (c.rename f) := by
      rw [Document.rename, hd]; rfl
    simp only [process_diag_data, h1, hd]
    have ht : (c.rename f).isTruthy = c.isTruthy := by
      rw [DiagContent.rename, DiagContent.isTruthy, DiagContent.isTruthy]
      simp [Option.isSome_map]
    rcases htv : c.isTruthy with _ | _
    · rw [ht, htv]
      rfl
    · rw [ht, htv]
      rw [ite_bool_true, ite_bool_true]
      have hjob : (c.rename f).job.getD [] = renameItems f (c.job.getD []) := by
        rcases hj : c.job with _ | jl
        · rw [DiagContent.rename, hj]; rfl
        · rw [DiagContent.rename, hj]; rfl
      have hdtc : (c.rename f).dtc.getD [] = renameItems f (c.dtc.getD []) := by
        rcases hj : c.dtc with _ | jl
        · rw [DiagContent.rename, hj]; rfl
        · rw [DiagContent.rename, hj]; rfl
      rw [hjob, hdtc]
      have hbj := buildIdMap_rename f hf (c.job.getD []) []
        (fun i => CheckError.duplicateFileJobId i fn)
        (fun i => CheckError.duplicateFileJobId i fn) (fun i => rfl)
      have hbd := buildIdMap_rename f hf (c.dtc.getD []) []
        (fun i => CheckError.duplicateFileDtcId i fn)
        (fun i => CheckError.duplicateFileDtcId i fn) (fun i => rfl)
      rw [show renameMap f [] = [] from rfl] at hbj hbd
      rcases hm : buildIdMap [] (c.job.getD [])
          (fun i => CheckError.duplicateFileJobId i fn) with e1 | m1
      · rw [hm] at hbj
        rw [hbj]
        simp [Bind.bind, Except.bind, mapExc]
      · rw [hm] at hbj
        rw [hbj]
        simp only [Bind.bind, Except.bind, mapExc]
        rcases hdc : buildIdMap [] (c.dtc.getD [])
            (fun i => CheckError.duplicateFileDtcId i fn) with e2 | m2
        · rw [hdc] at hbd
          rw [hbd]
          simp [mapExc]
        · rw [hdc] at hbd
          rw [hbd]
          simp [mapExc, DiagEntity.rename]

/-- C9: no range validation of ids.  Extraction and admission commute with
any injective renaming of the integer ids — the code only ever compares
ids for equality, so negative ids and zero are processed exactly like any
other integer and participate in duplicate detection the same way. -/
theorem no_range_validation (f : Int → Int) (hf : Function.Injective f) :
    (∀ (db : DataBase) (e : SomeIpEntity),
       (db.rename f).add_someip_entity (e.rename f) =
         (mapExc (CheckError.rename f) id (db.add_someip_entity e).1,
          (db.add_someip_entity e).2.rename f))
    ∧ (∀ (db : DataBase) (e : DiagEntity),
       (db.rename f).add_diag_entity (e.rename f) =
         (mapExc (CheckError.rename f) id (db.add_diag_entity e).1,
          (db.add_diag_entity e).2.rename f))
    ∧ (∀ d : Document,
       process_someip_data (d.rename f) =
         mapExc (CheckError.rename f) (List.map (SomeIpEntity.rename f))
           (process_someip_data d))
    ∧ (∀ (d : Document) (fn : String),
       process_diag_data (d.rename f) fn =
         mapExc (CheckError.rename f) (Option.map (DiagEntity.rename f))
           (process_diag_data d fn)) :=
  ⟨add_someip_rename f hf, add_diag_rename f hf,
   process_someip_data_rename f hf, process_diag_data_rename f hf⟩

/-- Witness for C9 with the injective renaming `i ↦ -i`, carrying a
service-id collision into negative ids: the negated registry and entity
collide exactly as the originals do. -/
theorem no_range_validation_witness :
    (((DataBase.empty.add_someip_entity ⟨"A", 5, [], []⟩).2).rename
        (fun i : Int => -i)).add_someip_entity
      (SomeIpEntity.rename (fun i : Int => -i) ⟨"B", 5, [], []⟩) =
      (mapExc (CheckError.rename (fun i : Int => -i)) id
         (((DataBase.empty.add_someip_entity ⟨"A", 5, [], []⟩).2).add_someip_entity
            ⟨"B", 5, [], []⟩).1,
       (((DataBase.empty.add_someip_entity ⟨"A", 5, [], []⟩).2).add_someip_entity
          ⟨"B", 5, [], []⟩).2.rename (fun i : Int => -i)) :=
  (no_range_validation (fun i : Int => -i) neg_injective).1
    (DataBase.empty.add_someip_entity ⟨"A", 5, [], []⟩).2 ⟨"B", 5, [], []⟩

end Confession
